import Mathlib

/-!
Verification of the documentation-navigation generator.

The repository holds two Python scripts:

* `generate_nav_and_index.py` — walks the `docs` directory, builds a nav
  structure and a parallel index-link structure (`scan_docs`), writes the nav
  into `mkdocs.yml` (`update_mkdocs_yml`) and renders `docs/index.md`
  (`generate_index_md`), sequenced by `main`.
* `update_nav.py` — walks the same directory (`build_nav`) and rewrites only
  the `nav` key of `mkdocs.yml` (`update_mkdocs_yaml`).

This file gives a shallow embedding of both scripts and proves properties of
the embedding.  Modelling conventions:

* The filesystem is a finite tree (`FSEntry`); `os.listdir` returns the names
  of a directory's children in unspecified order, and Python's `sorted` is a
  stable lexicographic sort, modelled by `List.insertionSort` on the raw name
  (Python compares strings by code point, as does `String.le`).
* Paths follow POSIX conventions (`os.sep = '/'`), so `os.path.join`
  concatenates with `'/'` and `rel_path.replace(os.sep, '/')` is the identity;
  `os.path.relpath(full, DOCS_DIR)` for paths built below `DOCS_DIR` is the
  base-relative path accumulated during the walk.
* Python strings here are ASCII names; `str.title()`, `str.lower()` and
  `os.path.splitext` are modelled character-faithfully for ASCII input.
* File I/O and the YAML library are external collaborators: the configuration
  file is modelled as its parsed state (`YamlFile`), `yaml.safe_load` of
  `yaml.dump(m)` returns `m` for the plain mappings produced here, and
  `yaml.dump(..., sort_keys=False)` is a deterministic serialization of the
  key-ordered mapping, modelled by `yamlDumpConfig`.
-/

/-- Filesystem entry: a file with its contents, or a directory with a finite
list of named children (the unordered `os.listdir` view). -/
inductive FSEntry where
  | file (content : String)
  | dir (children : List (String × FSEntry))
deriving Repr

/-- Discriminator used to state that a filesystem entry is a regular file. -/
def FSEntry.isFile : FSEntry → Bool
  | .file _ => true
  | .dir _ => false

/-- Discriminator for directories (`os.path.isdir`). -/
def FSEntry.isDir : FSEntry → Bool
  | .file _ => false
  | .dir _ => true

/-- Navigation node.  In Python a leaf is the single-key dict
`{title: path}` and a group is `{title: [children]}` (and the index-link
structure `(title, path)` / `(title, children)` has the same shape). -/
inductive NavItem where
  | leaf (title : String) (path : String)
  | group (title : String) (children : List NavItem)
deriving Repr

/-- Ordering used by `sorted(os.listdir(...))`: lexicographic (code point)
order on the raw entry name. -/
def entryLe (a b : String × FSEntry) : Prop := a.1 ≤ b.1

instance : DecidableRel entryLe := fun a b => inferInstanceAs (Decidable (a.1 ≤ b.1))

instance : IsTotal (String × FSEntry) entryLe := ⟨fun a b => le_total a.1 b.1⟩

instance : IsTrans (String × FSEntry) entryLe := ⟨fun _ _ _ h h' => le_trans h h'⟩

/-- Python `s.startswith(t)` (prefix test), over the character lists. -/
def pyStartsWith (s t : String) : Bool := t.data.isPrefixOf s.data

/-- Python `s.endswith(t)` (suffix test), over the character lists. -/
def pyEndsWith (s t : String) : Bool := t.data.reverse.isPrefixOf s.data.reverse

/-- Python `s.lower()` on ASCII text. -/
def pyLower (s : String) : String := ⟨s.data.map Char.toLower⟩

/-- Python `s.replace(a, b)` for single characters `a`, `b`. -/
def pyReplace (a b : Char) (s : String) : String := ⟨s.data.map (fun c => if c = a then b else c)⟩

/-- Scanner for Python `str.title()` on ASCII text: `prevCased` records
whether the previous character was a letter; a letter is upper-cased at a word
start (previous character not a letter) and lower-cased otherwise. -/
def pyTitleAux : Bool → List Char → List Char
  | _, [] => []
  | prevCased, c :: cs =>
    if c.isAlpha then (if prevCased then c.toLower else c.toUpper) :: pyTitleAux true cs
    else c :: pyTitleAux false cs

/-- Python `str.title()` (ASCII input). -/
def pyTitle (s : String) : String := ⟨pyTitleAux false s.data⟩

/-- Everything before the last `'.'` of a character list that contains one. -/
def stripLastDot (cs : List Char) : List Char := ((cs.reverse.dropWhile (· ≠ '.')).drop 1).reverse

/-- Root part of Python `os.path.splitext` applied to a bare file name:
the extension starts at the last dot, except that leading dots of the name
never start an extension (`.bashrc` has no extension). -/
def splitextRoot (s : String) : String :=
  let cs := s.data
  let lead := cs.takeWhile (· = '.')
  let rest := cs.drop lead.length
  if rest.contains '.' then ⟨lead ++ stripLastDot rest⟩ else s

/-- POSIX `os.path.join` for the two-argument form used by both scripts. -/
def pathJoin (base name : String) : String :=
  if pyStartsWith name "/" then name
  else if base = "" then name
  else if pyEndsWith base "/" then base ++ name else base ++ "/" ++ name

/-- Test from `scan_docs`: `item.startswith('.') or item.startswith('_')`. -/
def isHidden (name : String) : Bool := pyStartsWith name "." || pyStartsWith name "_"

/-- Value stored under a key of the parsed `mkdocs.yml` mapping.  Keys other
than `nav` are never inspected by either script, so their values are kept
opaquely (`scalar`); the `nav` key receives the nav structure itself. -/
inductive YamlVal where
  | scalar (s : String)
  | navList (items : List NavItem)
deriving Repr

/-- Parsed configuration document: a key-ordered mapping, as returned by
`yaml.safe_load` and preserved by Python dicts. -/
abbrev Config := List (String × YamlVal)

/-- Python `config[k] = v` on a (key-unique) ordered dict: replace the value
in place if the key exists, otherwise append the new key at the end. -/
def setKey (cfg : Config) (k : String) (v : YamlVal) : Config :=
  if cfg.any (fun p => p.1 == k) then cfg.map (fun p => if p.1 == k then (k, v) else p)
  else cfg ++ [(k, v)]

/-- Lookup of a top-level configuration key. -/
def lookupKey (cfg : Config) (k : String) : Option YamlVal :=
  (cfg.find? (fun p => p.1 == k)).map Prod.snd

/-- State of the `mkdocs.yml` file: missing, existing but parsing to YAML
`null` (an empty document), or parsing to a mapping. -/
inductive YamlFile where
  | absent
  | nullDoc
  | mapping (cfg : Config)

/-- Serialization of one nav node for `yaml.dump`; the exact text is the
YAML library's concern, this is a fixed deterministic rendering. -/
def navDumpList : List NavItem → String
  | [] => ""
  | .leaf t p :: rest => "(" ++ t ++ ": " ++ p ++ ")" ++ navDumpList rest
  | .group t cs :: rest => "(" ++ t ++ ": [" ++ navDumpList cs ++ "])" ++ navDumpList rest

/-- Deterministic serialization of a stored value. -/
def yamlDumpVal : YamlVal → String
  | .scalar s => s
  | .navList items => "[" ++ navDumpList items ++ "]"

/-- Deterministic model of `yaml.dump(config, sort_keys=False)`: keys in
stored order, each with its serialized value. -/
def yamlDumpConfig (cfg : Config) : String :=
  String.intercalate "\n" (cfg.map (fun p => p.1 ++ ": " ++ yamlDumpVal p.2))

/-- Writing a file into a directory listing (`open(path, 'w')` semantics on
the parent directory): truncate/replace an existing entry of that name,
otherwise create it at the end of the listing. -/
def setEntry (l : List (String × FSEntry)) (name : String) (e : FSEntry) :
    List (String × FSEntry) :=
  if l.any (fun p => p.1 == name) then l.map (fun p => if p.1 == name then (name, e) else p)
  else l ++ [(name, e)]

/-- Common shape of `setKey` and `setEntry` (replace-in-place or append), used
to prove their lookup properties once. -/
def upsert {α : Type} (l : List (String × α)) (k : String) (v : α) : List (String × α) :=
  if l.any (fun p => p.1 == k) then l.map (fun p => if p.1 == k then (k, v) else p)
  else l ++ [(k, v)]

namespace GenerateNav

/-- Line 9-10 of `generate_nav_and_index.py`:
`name.replace('_', ' ').replace('-', ' ').title()`. -/
def format_title (name : String) : String := pyTitle (pyReplace '-' ' ' (pyReplace '_' ' ' name))

/-- Lines 13-35 of `generate_nav_and_index.py` (`scan_docs`): walk a directory,
iterating its entries in sorted order; skip names starting with `'.'` or
`'_'`; recurse into subdirectories, emitting a group node unconditionally;
emit a leaf for `*.md` files other than (case-insensitively) `index.md`.
The nav list and the index-link list are built in one loop from the same
titles and paths, so they are two structurally identical lists. -/
def scan_docs (e : FSEntry) (base : String) : List NavItem × List NavItem :=
  match e with
  | .file _ => ([], [])
  | .dir children =>
    let sorted := (List.insertionSort entryLe children).attach
    ( sorted.filterMap (fun x =>
        if isHidden x.1.1 then none
        else match x.1.2 with
          | .dir _ => some (.group (format_title x.1.1) (scan_docs x.1.2 (pathJoin base x.1.1)).1)
          | .file _ =>
            if pyEndsWith x.1.1 ".md" && pyLower x.1.1 != "index.md"
            then some (.leaf (format_title (splitextRoot x.1.1)) (pathJoin base x.1.1))
            else none),
      sorted.filterMap (fun x =>
        if isHidden x.1.1 then none
        else match x.1.2 with
          | .dir _ => some (.group (format_title x.1.1) (scan_docs x.1.2 (pathJoin base x.1.1)).2)
          | .file _ =>
            if pyEndsWith x.1.1 ".md" && pyLower x.1.1 != "index.md"
            then some (.leaf (format_title (splitextRoot x.1.1)) (pathJoin base x.1.1))
            else none) )
termination_by sizeOf e
decreasing_by
  all_goals
    have hmem := x.property
    rw [List.mem_insertionSort] at hmem
    have h1 := List.sizeOf_lt_of_mem hmem
    have h2 : sizeOf (x.1).2 ≤ sizeOf x.1 := by
      cases x.1 with
      | mk a b => simp only [Prod.mk.sizeOf_spec]; omega
    simp only [FSEntry.dir.sizeOf_spec]
    omega

/-- Action of one loop iteration of `scan_docs` on one directory entry, nav
component: `none` when the entry is skipped. -/
def emitNav (base : String) (p : String × FSEntry) : Option NavItem :=
  if isHidden p.1 then none
  else match p.2 with
    | .dir _ => some (.group (format_title p.1) (scan_docs p.2 (pathJoin base p.1)).1)
    | .file _ =>
      if pyEndsWith p.1 ".md" && pyLower p.1 != "index.md"
      then some (.leaf (format_title (splitextRoot p.1)) (pathJoin base p.1))
      else none

/-- Action of one loop iteration of `scan_docs`, index-link component. -/
def emitIdx (base : String) (p : String × FSEntry) : Option NavItem :=
  if isHidden p.1 then none
  else match p.2 with
    | .dir _ => some (.group (format_title p.1) (scan_docs p.2 (pathJoin base p.1)).2)
    | .file _ =>
      if pyEndsWith p.1 ".md" && pyLower p.1 != "index.md"
      then some (.leaf (format_title (splitextRoot p.1)) (pathJoin base p.1))
      else none

/-- Lines 38-50 of `generate_nav_and_index.py` (`render_links`): each link
appends one `- [title](path)` line; each section appends a heading line
`{'#' * level} title` framed by blank lines and then its children at the next
level.  The accumulated `lines` list is the concatenation in loop order. -/
def render_links : List NavItem → Nat → List String
  | [], _ => []
  | .group title sub :: rest, lvl =>
    ("\n" ++ String.mk (List.replicate lvl '#') ++ " " ++ title ++ "\n")
      :: (render_links sub (lvl + 1) ++ render_links rest lvl)
  | .leaf title link :: rest, lvl =>
    ("- [" ++ title ++ "](" ++ link ++ ")") :: render_links rest lvl

/-- Lines 38-50 of `generate_nav_and_index.py` (`generate_index_md`): the
header line followed by the rendered links, joined with newlines. -/
def generate_index_md (index_links : List NavItem) : String :=
  String.intercalate "\n" ("# Documentation Index\n" :: render_links index_links 2)

/-- Lines 53-63 of `generate_nav_and_index.py` (`update_mkdocs_yml`), as the
configuration-value transformation: read the file if it exists
(`yaml.safe_load(f) or {}` turns an empty document into `{}`), start from `{}`
if missing, then set `config['nav']`.  The write itself is modelled in
`main`. -/
def update_mkdocs_yml (file : YamlFile) (nav : List NavItem) : Config :=
  let config : Config :=
    match file with
    | .absent => []
    | .nullDoc => []
    | .mapping m => m
  setKey config "nav" (.navList nav)

/-- World state seen by `generate_nav_and_index.py`: the listing of the
`docs` directory (`none` when the directory is missing, making `os.listdir`
raise), the `mkdocs.yml` state, and whether `mkdocs.yml` can be opened for
writing. -/
structure World where
  docs : Option (List (String × FSEntry))
  mkdocs : YamlFile
  mkdocsWritable : Bool

/-- Failure stages of a run of `generate_nav_and_index.py`. -/
inductive RunErr where
  | scanErr
  | configWriteErr
  | indexWriteErr
deriving Repr, DecidableEq

/-- Lines 68-78 of `generate_nav_and_index.py` (`main`): scan first (aborting
with nothing written if `docs` is missing), then rewrite `mkdocs.yml`
(aborting before the index is written if that write fails), then write
`docs/index.md` (which fails if `index.md` exists as a directory; `open`
then touches nothing). -/
def main (w : World) : World × Option RunErr :=
  match w.docs with
  | none => (w, some .scanErr)
  | some children =>
    let nav := (scan_docs (.dir children) "").1
    let index_links := (scan_docs (.dir children) "").2
    if w.mkdocsWritable then
      let config := update_mkdocs_yml w.mkdocs nav
      let w1 : World := { w with mkdocs := .mapping config }
      let index_content := generate_index_md index_links
      if children.any (fun p => p.1 == "index.md" && p.2.isDir) then
        (w1, some .indexWriteErr)
      else
        ({ w1 with docs := some (setEntry children "index.md" (.file index_content)) }, none)
    else (w, some .configWriteErr)

end GenerateNav

namespace UpdateNav

/-- Lines 7-9 of `update_nav.py` (`title_case`):
`os.path.splitext(name)[0].replace('_', ' ').title()` — the hyphen is not
replaced here. -/
def title_case (name : String) : String := pyTitle (pyReplace '_' ' ' (splitextRoot name))

/-- Lines 11-26 of `update_nav.py` (`build_nav`): iterate entries in sorted
order with no hidden-name filtering; recurse into subdirectories and emit a
group only when the recursive result is non-empty (title
`entry.replace('_', ' ').title()`); emit a leaf for every `*.md` file
(including `index.md`), with `rel_path.replace('\\', '/')` as path. -/
def build_nav (e : FSEntry) (base : String) : List NavItem :=
  match e with
  | .file _ => []
  | .dir children =>
    (List.insertionSort entryLe children).attach.filterMap (fun x =>
      match x.1.2 with
      | .dir _ =>
        let sub := build_nav x.1.2 (pathJoin base x.1.1)
        if sub.isEmpty then none
        else some (.group (pyTitle (pyReplace '_' ' ' x.1.1)) sub)
      | .file _ =>
        if pyEndsWith x.1.1 ".md"
        then some (.leaf (title_case x.1.1) (pyReplace '\\' '/' (pathJoin base x.1.1)))
        else none)
termination_by sizeOf e
decreasing_by
  all_goals
    have hmem := x.property
    rw [List.mem_insertionSort] at hmem
    have h1 := List.sizeOf_lt_of_mem hmem
    have h2 : sizeOf (x.1).2 ≤ sizeOf x.1 := by
      cases x.1 with
      | mk a b => simp only [Prod.mk.sizeOf_spec]; omega
    simp only [FSEntry.dir.sizeOf_spec]
    omega

/-- Action of one loop iteration of `build_nav` on one directory entry. -/
def emitUpd (base : String) (p : String × FSEntry) : Option NavItem :=
  match p.2 with
  | .dir _ =>
    let sub := build_nav p.2 (pathJoin base p.1)
    if sub.isEmpty then none
    else some (.group (pyTitle (pyReplace '_' ' ' p.1)) sub)
  | .file _ =>
    if pyEndsWith p.1 ".md"
    then some (.leaf (title_case p.1) (pyReplace '\\' '/' (pathJoin base p.1)))
    else none

/-- Failure modes of `update_nav.py`. -/
inductive UpdErr where
  | fileNotFoundErr
  | docsListErr
  | noneTypeErr
deriving Repr, DecidableEq

/-- Lines 28-37 of `update_nav.py` (`update_mkdocs_yaml`): `open(CONFIG_FILE)`
raises if the file is missing; then `config['nav'] = build_nav(DOCS_DIR)`
evaluates `build_nav` first (raising if `docs` is missing) and then assigns,
which raises a `TypeError` when the parsed config is `None`.  On success the
returned mapping is what `yaml.dump` writes back. -/
def update_mkdocs_yaml (docs : Option (List (String × FSEntry))) (cfgFile : YamlFile) :
    Except UpdErr Config :=
  match cfgFile, docs with
  | .absent, _ => .error .fileNotFoundErr
  | _, none => .error .docsListErr
  | .nullDoc, some _ => .error .noneTypeErr
  | .mapping cfg, some children =>
    .ok (setKey cfg "nav" (.navList (build_nav (.dir children) "")))

end UpdateNav

/-- Removal of all hidden entries (names starting with `'.'` or `'_'`) at
every depth of a filesystem tree; used to state that such entries never
influence the scan. -/
def stripHidden : FSEntry → FSEntry
  | .file c => .file c
  | .dir l =>
    .dir ((l.filter (fun p => !(isHidden p.1))).attach.map (fun x => (x.1.1, stripHidden x.1.2)))
termination_by e => sizeOf e
decreasing_by
  have hmem := List.mem_of_mem_filter x.property
  have h1 := List.sizeOf_lt_of_mem hmem
  have h2 : sizeOf (x.1).2 ≤ sizeOf x.1 := by
    cases x.1 with
    | mk a b => simp only [Prod.mk.sizeOf_spec]; omega
  simp only [FSEntry.dir.sizeOf_spec]
  omega

/-- Recursive check that no group anywhere in a nav node has an empty child
list. -/
def NavItem.noEmptyGroupsB : NavItem → Bool
  | .leaf _ _ => true
  | .group _ cs => !cs.isEmpty && cs.attach.all (fun x => x.1.noEmptyGroupsB)
termination_by it => sizeOf it
decreasing_by
  have h1 := List.sizeOf_lt_of_mem x.property
  simp only [NavItem.group.sizeOf_spec]
  omega

/-- Check over a whole nav forest that no group has an empty child list. -/
def navForestNoEmpty (l : List NavItem) : Bool := l.all NavItem.noEmptyGroupsB

/-- Modelled from the amended reading of the title rule: title-casing whose
word boundaries sit at every non-letter character — a letter that starts the
string or follows a non-letter is upper-cased, a letter following a letter is
lower-cased, non-letters are unchanged.  Written independently of `pyTitle`
(pairing each character with its predecessor) to compare the two. -/
def titleSpec (s : String) : String :=
  ⟨(s.data.zip (none :: s.data.map some)).map (fun pc =>
    if pc.1.isAlpha then
      match pc.2 with
      | none => pc.1.toUpper
      | some p => if p.isAlpha then pc.1.toLower else pc.1.toUpper
    else pc.1)⟩

/-- Title-casing exactly as the claim words it: the first letter of each
whitespace-delimited token is upper-cased and the remainder of the token is
lower-cased. -/
def tokenTitle (s : String) : String :=
  ⟨(s.data.zip (none :: s.data.map some)).map (fun pc =>
    match pc.2 with
    | none => pc.1.toUpper
    | some p => if p.isWhitespace then pc.1.toUpper else pc.1.toLower)⟩

/-- Title derivation as claimed (for a name whose extension, if any, is
already stripped): replace `'_'` and `'-'` by spaces, then whitespace-token
title-case. -/
def claimedTitle (name : String) : String := tokenTitle (pyReplace '-' ' ' (pyReplace '_' ' ' name))

/-- Bytes of the serialized `mkdocs.yml`, observable once the file holds a
mapping. -/
def GenerateNav.World.mkdocsBytes (w : GenerateNav.World) : Option String :=
  match w.mkdocs with
  | .mapping cfg => some (yamlDumpConfig cfg)
  | _ => none

/-- Contents of the `docs/index.md` file of a world, when present. -/
def GenerateNav.World.indexFileContent (w : GenerateNav.World) : Option String :=
  match w.docs with
  | none => none
  | some l =>
    match l.find? (fun p => p.1 == "index.md") with
    | some (_, .file c) => some c
    | _ => none

theorem filterMap_attach_eq {α β : Type} (l : List α) (f : {x // x ∈ l} → Option β)
    (g : α → Option β) (h : ∀ a ha, f ⟨a, ha⟩ = g a) : l.attach.filterMap f = l.filterMap g := by
  have h2 : l.filterMap g = (l.attach.map Subtype.val).filterMap g := by
    rw [List.attach_map_subtype_val]
  rw [h2, List.filterMap_map]
  apply List.filterMap_congr
  intro x _
  cases x with
  | mk a ha => exact h a ha

theorem map_attach_eq {α β : Type} (l : List α) (f : {x // x ∈ l} → β)
    (g : α → β) (h : ∀ a ha, f ⟨a, ha⟩ = g a) : l.attach.map f = l.map g := by
  have h2 : l.map g = (l.attach.map Subtype.val).map g := by
    rw [List.attach_map_subtype_val]
  rw [h2, List.map_map]
  apply List.map_congr_left
  intro x _
  cases x with
  | mk a ha => exact h a ha

theorem scan_docs_dir (children : List (String × FSEntry)) (base : String) :
    GenerateNav.scan_docs (.dir children) base =
      ((List.insertionSort entryLe children).filterMap (GenerateNav.emitNav base),
       (List.insertionSort entryLe children).filterMap (GenerateNav.emitIdx base)) := by
  rw [GenerateNav.scan_docs]
  exact Prod.ext
    (filterMap_attach_eq _ _ _ (fun a ha => rfl))
    (filterMap_attach_eq _ _ _ (fun a ha => rfl))

theorem build_nav_dir (children : List (String × FSEntry)) (base : String) :
    UpdateNav.build_nav (.dir children) base =
      (List.insertionSort entryLe children).filterMap (UpdateNav.emitUpd base) := by
  rw [UpdateNav.build_nav]
  exact filterMap_attach_eq _ _ _ (fun a ha => rfl)

theorem stripHidden_dir (l : List (String × FSEntry)) :
    stripHidden (.dir l) =
      .dir ((l.filter (fun p => !(isHidden p.1))).map (fun p => (p.1, stripHidden p.2))) := by
  rw [stripHidden]
  exact congrArg FSEntry.dir (map_attach_eq _ _ _ (fun a ha => rfl))

theorem filterMap_orderedInsert_none {β : Type} (f : (String × FSEntry) → Option β)
    (a : String × FSEntry) (s : List (String × FSEntry)) (ha : f a = none) :
    (s.orderedInsert entryLe a).filterMap f = s.filterMap f := by
  induction s with
  | nil => simp [List.orderedInsert, List.filterMap_cons, ha]
  | cons b t ih =>
    rw [List.orderedInsert]
    by_cases h : entryLe a b
    · rw [if_pos h]
      simp [List.filterMap_cons, ha]
    · rw [if_neg h]
      simp only [List.filterMap_cons]
      cases f b <;> simp [ih]

theorem orderedInsert_of_forall_le (a : String × FSEntry) (s : List (String × FSEntry))
    (h : ∀ z ∈ s, entryLe a z) : s.orderedInsert entryLe a = a :: s := by
  cases s with
  | nil => rfl
  | cons b t => rw [List.orderedInsert, if_pos (h b (by simp))]

theorem filter_orderedInsert (keep : (String × FSEntry) → Bool) (a : String × FSEntry)
    (s : List (String × FSEntry)) (hs : List.Sorted entryLe s) :
    (s.orderedInsert entryLe a).filter keep =
      if keep a then (s.filter keep).orderedInsert entryLe a else s.filter keep := by
  induction s with
  | nil =>
    by_cases hka : keep a <;> simp [List.orderedInsert, List.filter, hka]
  | cons b t ih =>
    have hbt : ∀ z ∈ t, entryLe b z := List.rel_of_sorted_cons hs
    rw [List.orderedInsert]
    by_cases hab : entryLe a b
    · rw [if_pos hab]
      by_cases hka : keep a
      · rw [if_pos hka, List.filter_cons_of_pos hka]
        by_cases hkb : keep b
        · rw [List.filter_cons_of_pos hkb, List.orderedInsert, if_pos hab]
        · rw [List.filter_cons_of_neg hkb]
          rw [orderedInsert_of_forall_le]
          intro z hz
          have hz' := List.mem_of_mem_filter hz
          exact le_trans hab (hbt z hz')
      · rw [if_neg hka, List.filter_cons_of_neg hka]
    · rw [if_neg hab]
      by_cases hkb : keep b
      · rw [List.filter_cons_of_pos hkb, List.filter_cons_of_pos hkb,
          ih hs.of_cons]
        by_cases hka : keep a
        · rw [if_pos hka, if_pos hka, List.orderedInsert, if_neg hab]
        · rw [if_neg hka, if_neg hka]
      · rw [List.filter_cons_of_neg hkb, List.filter_cons_of_neg hkb, ih hs.of_cons]

theorem filter_insertionSort (keep : (String × FSEntry) → Bool) (l : List (String × FSEntry)) :
    (List.insertionSort entryLe l).filter keep = List.insertionSort entryLe (l.filter keep) := by
  induction l with
  | nil => rfl
  | cons a t ih =>
    rw [List.insertionSort,
      filter_orderedInsert keep a _ (List.sorted_insertionSort entryLe t), ih,
      List.filter_cons]
    by_cases h : keep a <;> simp [h, List.insertionSort]

theorem filterMap_filter_isSome {β : Type} (f : (String × FSEntry) → Option β)
    (l : List (String × FSEntry)) :
    (l.filter (fun a => (f a).isSome)).filterMap f = l.filterMap f := by
  induction l with
  | nil => rfl
  | cons a t ih =>
    cases hf : f a <;>
      simp [List.filter_cons, List.filterMap_cons, hf, ih]

theorem filterMap_insertionSort_filter {β : Type} (f : (String × FSEntry) → Option β)
    (l : List (String × FSEntry)) :
    (List.insertionSort entryLe l).filterMap f =
      (List.insertionSort entryLe (l.filter (fun a => (f a).isSome))).filterMap f := by
  rw [← filter_insertionSort, filterMap_filter_isSome]

theorem filterMap_filter_eq_of_none {β : Type} (f : (String × FSEntry) → Option β)
    (q : (String × FSEntry) → Bool) (l : List (String × FSEntry))
    (h : ∀ a ∈ l, q a = false → f a = none) :
    (l.filter q).filterMap f = l.filterMap f := by
  induction l with
  | nil => rfl
  | cons a t ih =>
    have ih' := ih (fun b hb => h b (List.mem_cons_of_mem a hb))
    cases hq : q a
    · rw [List.filter_cons_of_neg (by simp [hq]), List.filterMap_cons,
        h a (List.mem_cons_self a t) hq, ih']
    · rw [List.filter_cons_of_pos (by simp [hq]), List.filterMap_cons, List.filterMap_cons, ih']

theorem stripHidden_file (c : String) : stripHidden (.file c) = .file c := by
  rw [stripHidden]

theorem emitNav_hidden (base : String) (p : String × FSEntry) (h : isHidden p.1 = true) :
    GenerateNav.emitNav base p = none := by
  simp [GenerateNav.emitNav, h]

theorem emitIdx_hidden (base : String) (p : String × FSEntry) (h : isHidden p.1 = true) :
    GenerateNav.emitIdx base p = none := by
  simp [GenerateNav.emitIdx, h]

theorem strip_component {γ : Type} (emit : (String × FSEntry) → Option γ)
    (l : List (String × FSEntry))
    (hhid : ∀ p : String × FSEntry, isHidden p.1 = true → emit p = none)
    (hstrip : ∀ p ∈ l, isHidden p.1 = false → emit (p.1, stripHidden p.2) = emit p) :
    (List.insertionSort entryLe
        ((l.filter (fun p => !(isHidden p.1))).map (fun p => (p.1, stripHidden p.2)))).filterMap
        emit
      = (List.insertionSort entryLe l).filterMap emit := by
  have hms := List.map_insertionSort (r := entryLe) (s := entryLe)
    (fun p : String × FSEntry => (p.1, stripHidden p.2))
    (l.filter (fun p => !(isHidden p.1))) (fun _ _ _ _ => Iff.rfl)
  rw [← hms, List.filterMap_map]
  have hcong : ∀ p ∈ List.insertionSort entryLe (l.filter (fun p => !(isHidden p.1))),
      (emit ∘ fun p : String × FSEntry => (p.1, stripHidden p.2)) p = emit p := by
    intro p hp
    have hp' : p ∈ l.filter (fun p => !(isHidden p.1)) := (List.mem_insertionSort _).1 hp
    have hnp : isHidden p.1 = false := by
      have := List.of_mem_filter hp'
      simpa using this
    exact hstrip p (List.mem_of_mem_filter hp') hnp
  rw [List.filterMap_congr hcong, ← filter_insertionSort]
  exact filterMap_filter_eq_of_none emit _ _
    (fun a _ hq => hhid a (by simpa using hq))

theorem scan_docs_stripHidden (e : FSEntry) (base : String) :
    GenerateNav.scan_docs (stripHidden e) base = GenerateNav.scan_docs e base := by
  suffices H : ∀ (n : Nat) (e : FSEntry) (base : String), sizeOf e ≤ n →
      GenerateNav.scan_docs (stripHidden e) base = GenerateNav.scan_docs e base from
    H (sizeOf e) e base le_rfl
  intro n
  induction n with
  | zero =>
    intro e base h
    exfalso
    cases e <;> simp_all [FSEntry.file.sizeOf_spec, FSEntry.dir.sizeOf_spec]
  | succ n ih =>
    intro e base hsz
    cases e with
    | file c => rw [stripHidden_file]
    | dir l =>
      have hszl : sizeOf l ≤ n := by
        simp only [FSEntry.dir.sizeOf_spec] at hsz; omega
      have hstripN : ∀ p ∈ l, isHidden p.1 = false →
          GenerateNav.emitNav base (p.1, stripHidden p.2) = GenerateNav.emitNav base p := by
        intro p hpl hnp
        obtain ⟨name, sub⟩ := p
        have hpsz : sizeOf sub ≤ n := by
          have h1 := List.sizeOf_lt_of_mem hpl
          simp only [Prod.mk.sizeOf_spec] at h1
          omega
        cases sub with
        | file c => rw [stripHidden_file]
        | dir m =>
          have hscan : GenerateNav.scan_docs (stripHidden (.dir m)) (pathJoin base name) =
              GenerateNav.scan_docs (.dir m) (pathJoin base name) :=
            ih (.dir m) (pathJoin base name) hpsz
          rw [stripHidden_dir] at hscan ⊢
          simp only [GenerateNav.emitNav, hnp, Bool.false_eq_true, if_false, hscan]
      have hstripI : ∀ p ∈ l, isHidden p.1 = false →
          GenerateNav.emitIdx base (p.1, stripHidden p.2) = GenerateNav.emitIdx base p := by
        intro p hpl hnp
        obtain ⟨name, sub⟩ := p
        have hpsz : sizeOf sub ≤ n := by
          have h1 := List.sizeOf_lt_of_mem hpl
          simp only [Prod.mk.sizeOf_spec] at h1
          omega
        cases sub with
        | file c => rw [stripHidden_file]
        | dir m =>
          have hscan : GenerateNav.scan_docs (stripHidden (.dir m)) (pathJoin base name) =
              GenerateNav.scan_docs (.dir m) (pathJoin base name) :=
            ih (.dir m) (pathJoin base name) hpsz
          rw [stripHidden_dir] at hscan ⊢
          simp only [GenerateNav.emitIdx, hnp, Bool.false_eq_true, if_false, hscan]
      rw [stripHidden_dir, scan_docs_dir, scan_docs_dir]
      exact Prod.ext
        (strip_component (GenerateNav.emitNav base) l (emitNav_hidden base) hstripN)
        (strip_component (GenerateNav.emitIdx base) l (emitIdx_hidden base) hstripI)

theorem setKey_eq_upsert (cfg : Config) (k : String) (v : YamlVal) :
    setKey cfg k v = upsert cfg k v := rfl

theorem setEntry_eq_upsert (l : List (String × FSEntry)) (name : String) (e : FSEntry) :
    setEntry l name e = upsert l name e := rfl

theorem upsert_any {α : Type} (l : List (String × α)) (k : String) (v : α) :
    (upsert l k v).any (fun p => p.1 == k) = true := by
  unfold upsert
  by_cases h : l.any (fun p => p.1 == k) = true
  · rw [if_pos h]
    obtain ⟨p, hp, hpk⟩ := List.any_eq_true.mp h
    refine List.any_eq_true.mpr ⟨(k, v), List.mem_map.mpr ⟨p, hp, by rw [if_pos hpk]⟩, by simp⟩
  · rw [if_neg h]
    simp [List.any_append]

theorem upsert_elem_eq {α : Type} (l : List (String × α)) (k : String) (v : α) :
    ∀ p ∈ upsert l k v, (p.1 == k) = true → p = (k, v) := by
  unfold upsert
  by_cases h : l.any (fun p => p.1 == k) = true
  · rw [if_pos h]
    intro p hp hpk
    obtain ⟨q, _, hq2⟩ := List.mem_map.mp hp
    by_cases hqk : (q.1 == k) = true
    · rw [if_pos hqk] at hq2
      exact hq2.symm
    · rw [if_neg hqk] at hq2
      rw [← hq2] at hpk
      exact absurd hpk hqk
  · rw [if_neg h]
    intro p hp hpk
    rcases List.mem_append.mp hp with hpl | hpr
    · have hall := List.any_eq_false.mp ((Bool.not_eq_true _).mp h)
      exact absurd hpk (hall p hpl)
    · simpa using hpr

theorem upsert_upsert {α : Type} (l : List (String × α)) (k : String) (v : α) :
    upsert (upsert l k v) k v = upsert l k v := by
  conv_lhs => rw [upsert]
  rw [if_pos (upsert_any l k v)]
  have hid : ∀ p ∈ upsert l k v, (if p.1 == k then (k, v) else p) = id p := by
    intro p hp
    by_cases hpk : (p.1 == k) = true
    · rw [if_pos hpk, id, upsert_elem_eq l k v p hp hpk]
    · rw [if_neg hpk, id]
  rw [List.map_congr_left hid, List.map_id]

theorem find?_upsert_self {α : Type} (l : List (String × α)) (k : String) (v : α) :
    (upsert l k v).find? (fun p => p.1 == k) = some (k, v) := by
  unfold upsert
  by_cases h : l.any (fun p => p.1 == k) = true
  · rw [if_pos h]
    induction l with
    | nil => simp at h
    | cons q t ih =>
      rw [List.map_cons]
      by_cases hpk : (q.1 == k) = true
      · rw [if_pos hpk]
        rw [List.find?_cons_of_pos (p := fun q : String × α => q.1 == k) _ (by simp)]
      · rw [if_neg hpk]
        rw [List.find?_cons_of_neg (p := fun q : String × α => q.1 == k) _ hpk]
        refine ih ?_
        rw [List.any_cons] at h
        rcases Bool.or_eq_true_iff.mp h with h1 | h2
        · exact absurd h1 hpk
        · exact h2
  · rw [if_neg h]
    have hall := List.any_eq_false.mp ((Bool.not_eq_true _).mp h)
    induction l with
    | nil => simp [List.find?]
    | cons q t ih =>
      have hpk : ¬((q.1 == k) = true) := hall q (List.mem_cons_self q t)
      rw [List.cons_append, List.find?_cons_of_neg (p := fun q : String × α => q.1 == k) _ hpk]
      refine ih ?_ (fun b hb => hall b (List.mem_cons_of_mem q hb))
      intro h2
      exact h (by rw [List.any_cons, h2, Bool.or_true])

theorem find?_upsert_other {α : Type} (l : List (String × α)) (k : String) (v : α)
    (k' : String) (h : k' ≠ k) :
    (upsert l k v).find? (fun p => p.1 == k') = l.find? (fun p => p.1 == k') := by
  have hkk : ¬((k == k') = true) := by
    simp only [beq_iff_eq]
    exact fun hk => h hk.symm
  unfold upsert
  by_cases hany : l.any (fun p => p.1 == k) = true
  · rw [if_pos hany]
    clear hany
    induction l with
    | nil => rfl
    | cons q t ih =>
      rw [List.map_cons]
      by_cases hpk : (q.1 == k) = true
      · have hp' : ¬((q.1 == k') = true) := by
          simp only [beq_iff_eq] at hpk ⊢
          rw [hpk]
          exact fun hk => h hk.symm
        rw [if_pos hpk, List.find?_cons_of_neg (p := fun q : String × α => q.1 == k') _ hkk,
          List.find?_cons_of_neg (p := fun q : String × α => q.1 == k') _ hp', ih]
      · rw [if_neg hpk]
        by_cases hp' : (q.1 == k') = true
        · rw [List.find?_cons_of_pos (p := fun q : String × α => q.1 == k') _ hp',
            List.find?_cons_of_pos (p := fun q : String × α => q.1 == k') _ hp']
        · rw [List.find?_cons_of_neg (p := fun q : String × α => q.1 == k') _ hp',
            List.find?_cons_of_neg (p := fun q : String × α => q.1 == k') _ hp', ih]
  · rw [if_neg hany]
    induction l with
    | nil =>
      rw [List.nil_append,
        List.find?_cons_of_neg (p := fun q : String × α => q.1 == k') _ hkk]
    | cons q t ih =>
      have ht : ¬(t.any fun p => p.1 == k) = true := by
        intro h2
        exact hany (by rw [List.any_cons, h2, Bool.or_true])
      rw [List.cons_append]
      by_cases hp' : (q.1 == k') = true
      · rw [List.find?_cons_of_pos (p := fun q : String × α => q.1 == k') _ hp',
          List.find?_cons_of_pos (p := fun q : String × α => q.1 == k') _ hp']
      · rw [List.find?_cons_of_neg (p := fun q : String × α => q.1 == k') _ hp',
          List.find?_cons_of_neg (p := fun q : String × α => q.1 == k') _ hp', ih ht]

theorem setKey_setKey (cfg : Config) (k : String) (v : YamlVal) :
    setKey (setKey cfg k v) k v = setKey cfg k v := by
  rw [setKey_eq_upsert, setKey_eq_upsert, upsert_upsert]

theorem lookupKey_setKey_self (cfg : Config) (k : String) (v : YamlVal) :
    lookupKey (setKey cfg k v) k = some v := by
  rw [setKey_eq_upsert]
  unfold lookupKey
  rw [find?_upsert_self]
  rfl

theorem lookupKey_setKey_other (cfg : Config) (k : String) (v : YamlVal) (k' : String)
    (h : k' ≠ k) : lookupKey (setKey cfg k v) k' = lookupKey cfg k' := by
  rw [setKey_eq_upsert]
  unfold lookupKey
  rw [find?_upsert_other cfg k v k' h]

theorem emitNav_index_file (base : String) (c : String) :
    GenerateNav.emitNav base ("index.md", .file c) = none := rfl

theorem emitIdx_index_file (base : String) (c : String) :
    GenerateNav.emitIdx base ("index.md", .file c) = none := rfl

theorem filter_map_if_key {α : Type} (keep : (String × α) → Bool) (l : List (String × α))
    (k : String) (w : String × α)
    (hmem : ∀ p ∈ l, (p.1 == k) = true → keep p = false) (hw : keep w = false) :
    ((l.map (fun p => if p.1 == k then w else p)).filter keep) = l.filter keep := by
  induction l with
  | nil => rfl
  | cons p t ih =>
    have ih' := ih (fun b hb => hmem b (List.mem_cons_of_mem p hb))
    rw [List.map_cons]
    by_cases hpk : (p.1 == k) = true
    · rw [if_pos hpk, List.filter_cons_of_neg (by simp [hw]),
        List.filter_cons_of_neg (by simp [hmem p (List.mem_cons_self p t) hpk]), ih']
    · rw [if_neg hpk]
      by_cases hkp : keep p = true
      · rw [List.filter_cons_of_pos hkp, List.filter_cons_of_pos hkp, ih']
      · rw [List.filter_cons_of_neg (by simpa using hkp),
          List.filter_cons_of_neg (by simpa using hkp), ih']

theorem filter_setEntry_index (keep : (String × FSEntry) → Bool)
    (l : List (String × FSEntry)) (c : String)
    (hidx : ∀ p ∈ l, p.1 = "index.md" → p.2.isFile = true)
    (hkeep : ∀ x : String, keep ("index.md", .file x) = false) :
    (setEntry l "index.md" (.file c)).filter keep = l.filter keep := by
  unfold setEntry
  by_cases h : l.any (fun p => p.1 == "index.md") = true
  · rw [if_pos h]
    refine filter_map_if_key keep l "index.md" ("index.md", .file c) ?_ (hkeep c)
    intro p hp hpk
    have hps : p.1 = "index.md" := by simpa using hpk
    have hpf := hidx p hp hps
    cases hp2 : p.2 with
    | file x =>
      have hpw : p = ("index.md", .file x) := by
        cases p with
        | mk a b =>
          simp only at hps hp2
          rw [hps, hp2]
      rw [hpw, hkeep x]
    | dir m => rw [hp2] at hpf; simp [FSEntry.isFile] at hpf
  · rw [if_neg h]
    rw [List.filter_append]
    have hone : ([("index.md", FSEntry.file c)].filter keep) = [] := by
      rw [List.filter_cons_of_neg (by simp [hkeep c])]
      rfl
    rw [hone, List.append_nil]

theorem scan_setEntry_index (children : List (String × FSEntry)) (base : String) (c : String)
    (hidx : ∀ p ∈ children, p.1 = "index.md" → p.2.isFile = true) :
    GenerateNav.scan_docs (.dir (setEntry children "index.md" (.file c))) base
      = GenerateNav.scan_docs (.dir children) base := by
  have hkN : ∀ x : String, (GenerateNav.emitNav base ("index.md", FSEntry.file x)).isSome = false :=
    fun x => by rw [emitNav_index_file base x]; rfl
  have hkI : ∀ x : String, (GenerateNav.emitIdx base ("index.md", FSEntry.file x)).isSome = false :=
    fun x => by rw [emitIdx_index_file base x]; rfl
  have e1 : List.filterMap (GenerateNav.emitNav base)
        (List.insertionSort entryLe (setEntry children "index.md" (.file c)))
      = List.filterMap (GenerateNav.emitNav base) (List.insertionSort entryLe children) := by
    rw [filterMap_insertionSort_filter, filter_setEntry_index _ _ _ hidx hkN,
      ← filterMap_insertionSort_filter]
  have e2 : List.filterMap (GenerateNav.emitIdx base)
        (List.insertionSort entryLe (setEntry children "index.md" (.file c)))
      = List.filterMap (GenerateNav.emitIdx base) (List.insertionSort entryLe children) := by
    rw [filterMap_insertionSort_filter, filter_setEntry_index _ _ _ hidx hkI,
      ← filterMap_insertionSort_filter]
  rw [scan_docs_dir, scan_docs_dir, e1, e2]

theorem setEntry_index_keeps_files (l : List (String × FSEntry)) (c : String)
    (hidx : ∀ p ∈ l, p.1 = "index.md" → p.2.isFile = true) :
    ∀ p ∈ setEntry l "index.md" (.file c), p.1 = "index.md" → p.2.isFile = true := by
  unfold setEntry
  by_cases h : l.any (fun p => p.1 == "index.md") = true
  · rw [if_pos h]
    intro p hp hps
    obtain ⟨q, hq, hq2⟩ := List.mem_map.mp hp
    by_cases hqk : (q.1 == "index.md") = true
    · rw [if_pos hqk] at hq2
      rw [← hq2]
      rfl
    · rw [if_neg hqk] at hq2
      rw [← hq2] at hps
      exact absurd (by simpa using hps : (q.1 == "index.md") = true) hqk
  · rw [if_neg h]
    intro p hp hps
    rcases List.mem_append.mp hp with hpl | hpr
    · exact hidx p hpl hps
    · have hpe : p = ("index.md", FSEntry.file c) := by simpa using hpr
      rw [hpe]
      rfl

theorem no_index_dir_of_files (l : List (String × FSEntry))
    (hidx : ∀ p ∈ l, p.1 = "index.md" → p.2.isFile = true) :
    (l.any (fun p => p.1 == "index.md" && p.2.isDir)) = false := by
  rw [List.any_eq_false]
  intro p hp hcon
  obtain ⟨h1, h2⟩ : (p.1 == "index.md") = true ∧ p.2.isDir = true := by simpa using hcon
  have hf := hidx p hp (by simpa using h1)
  cases hp2 : p.2 with
  | file x => rw [hp2] at h2; simp [FSEntry.isDir] at h2
  | dir m => rw [hp2] at hf; simp [FSEntry.isFile] at hf

theorem main_eq_of_success (docsL : List (String × FSEntry)) (mk : YamlFile)
    (hnodir : docsL.any (fun p => p.1 == "index.md" && p.2.isDir) = false) :
    GenerateNav.main ⟨some docsL, mk, true⟩ =
      (⟨some (setEntry docsL "index.md"
          (.file (GenerateNav.generate_index_md (GenerateNav.scan_docs (.dir docsL) "").2))),
        .mapping (GenerateNav.update_mkdocs_yml mk (GenerateNav.scan_docs (.dir docsL) "").1),
        true⟩, none) := by
  unfold GenerateNav.main
  simp only [if_true, hnodir, Bool.false_eq_true, if_false]

theorem all_attach_eq {α : Type} (l : List α) (f : {x // x ∈ l} → Bool) (g : α → Bool)
    (h : ∀ a ha, f ⟨a, ha⟩ = g a) : l.attach.all f = l.all g := by
  rw [Bool.eq_iff_iff, List.all_eq_true, List.all_eq_true]
  constructor
  · intro H a ha
    rw [← h a ha]
    exact H ⟨a, ha⟩ (List.mem_attach l ⟨a, ha⟩)
  · intro H x _
    cases x with
    | mk a ha => rw [h a ha]; exact H a ha

theorem noEmptyGroupsB_leaf (t p : String) : (NavItem.leaf t p).noEmptyGroupsB = true := by
  rw [NavItem.noEmptyGroupsB]

theorem noEmptyGroupsB_group (t : String) (cs : List NavItem) :
    (NavItem.group t cs).noEmptyGroupsB = (!cs.isEmpty && navForestNoEmpty cs) := by
  rw [NavItem.noEmptyGroupsB]
  unfold navForestNoEmpty
  rw [all_attach_eq cs _ NavItem.noEmptyGroupsB (fun a ha => rfl)]

theorem build_nav_no_empty (e : FSEntry) (base : String) :
    navForestNoEmpty (UpdateNav.build_nav e base) = true := by
  suffices H : ∀ (n : Nat) (e : FSEntry) (base : String), sizeOf e ≤ n →
      navForestNoEmpty (UpdateNav.build_nav e base) = true from
    H (sizeOf e) e base le_rfl
  intro n
  induction n with
  | zero =>
    intro e base h
    exfalso
    cases e <;> simp_all [FSEntry.file.sizeOf_spec, FSEntry.dir.sizeOf_spec]
  | succ n ih =>
    intro e base hsz
    cases e with
    | file c => rw [UpdateNav.build_nav]; rfl
    | dir l =>
      rw [build_nav_dir]
      unfold navForestNoEmpty
      rw [List.all_eq_true]
      intro it hit
      obtain ⟨p, hp, hemit⟩ := List.mem_filterMap.mp hit
      have hpl : p ∈ l := (List.mem_insertionSort _).1 hp
      have hpsz : sizeOf p.2 ≤ n := by
        have h1 := List.sizeOf_lt_of_mem hpl
        have h2 : sizeOf p.2 ≤ sizeOf p := by
          cases p with
          | mk a b => simp only [Prod.mk.sizeOf_spec]; omega
        simp only [FSEntry.dir.sizeOf_spec] at hsz
        omega
      unfold UpdateNav.emitUpd at hemit
      cases hp2 : p.2 with
      | file x =>
        rw [hp2] at hemit
        by_cases hmd : pyEndsWith p.1 ".md" = true
        · rw [if_pos hmd] at hemit
          rw [← Option.some_inj.mp hemit, noEmptyGroupsB_leaf]
        · rw [if_neg hmd] at hemit
          simp at hemit
      | dir m =>
        rw [hp2] at hemit
        simp only at hemit
        by_cases hsub : (UpdateNav.build_nav (.dir m) (pathJoin base p.1)).isEmpty = true
        · rw [if_pos hsub] at hemit
          simp at hemit
        · rw [if_neg hsub] at hemit
          rw [← Option.some_inj.mp hemit, noEmptyGroupsB_group]
          have hne := ih (.dir m) (pathJoin base p.1) (hp2 ▸ hpsz)
          rw [hne, Bool.and_true, Bool.not_eq_true']
          exact (Bool.not_eq_true _).mp hsub

theorem pyTitleAux_eq_zip (cs : List Char) : ∀ prev : Option Char,
    pyTitleAux (match prev with | none => false | some p => p.isAlpha) cs =
      (cs.zip (prev :: cs.map some)).map (fun pc =>
        if pc.1.isAlpha then
          match pc.2 with
          | none => pc.1.toUpper
          | some p => if p.isAlpha then pc.1.toLower else pc.1.toUpper
        else pc.1) := by
  induction cs with
  | nil => intro prev; rfl
  | cons c cs ih =>
    intro prev
    rw [List.map_cons, List.zip_cons_cons, List.map_cons]
    have ihc := ih (some c)
    by_cases hc : c.isAlpha = true
    · have hstep : pyTitleAux true cs =
          pyTitleAux (match some c with | none => false | some p => p.isAlpha) cs :=
        congrArg (fun b => pyTitleAux b cs) hc.symm
      rw [pyTitleAux, if_pos hc, if_pos hc, hstep, ihc]
      cases prev with
      | none => rfl
      | some p => rfl
    · have hc' : c.isAlpha = false := (Bool.not_eq_true _).mp hc
      have hstep : pyTitleAux false cs =
          pyTitleAux (match some c with | none => false | some p => p.isAlpha) cs :=
        congrArg (fun b => pyTitleAux b cs) hc'.symm
      rw [pyTitleAux, if_neg hc, if_neg hc, hstep, ihc]

theorem pyTitle_eq_titleSpec (s : String) : pyTitle s = titleSpec s := by
  unfold pyTitle titleSpec
  have h := pyTitleAux_eq_zip s.data none
  simp only at h
  rw [h]

theorem render_links_cons_group (t : String) (sub rest : List NavItem) (lvl : Nat) :
    GenerateNav.render_links (.group t sub :: rest) lvl =
      ("\n" ++ String.mk (List.replicate lvl '#') ++ " " ++ t ++ "\n")
        :: (GenerateNav.render_links sub (lvl + 1) ++ GenerateNav.render_links rest lvl) := by
  rw [GenerateNav.render_links]

theorem render_links_cons_leaf (t p : String) (rest : List NavItem) (lvl : Nat) :
    GenerateNav.render_links (.leaf t p :: rest) lvl =
      ("- [" ++ t ++ "](" ++ p ++ ")") :: GenerateNav.render_links rest lvl := by
  rw [GenerateNav.render_links]

theorem render_links_nil (lvl : Nat) : GenerateNav.render_links [] lvl = [] := by
  rw [GenerateNav.render_links]

theorem render_links_eq_flatMap (items : List NavItem) (lvl : Nat) :
    GenerateNav.render_links items lvl =
      items.flatMap (fun it => GenerateNav.render_links [it] lvl) := by
  induction items with
  | nil => rw [render_links_nil]; rfl
  | cons it rest ih =>
    cases it with
    | leaf t p =>
      rw [List.flatMap_cons, render_links_cons_leaf, render_links_cons_leaf,
        render_links_nil, ih]
      rfl
    | group t sub =>
      rw [List.flatMap_cons, render_links_cons_group, render_links_cons_group,
        render_links_nil, ih, List.append_nil]
      rfl

theorem emitted_names_sorted {γ : Type} (f : (String × FSEntry) → Option γ)
    (children : List (String × FSEntry)) :
    List.Sorted (fun a b : String => a ≤ b)
      (((List.insertionSort entryLe children).filter (fun p => (f p).isSome)).map Prod.fst) := by
  have hs : List.Sorted entryLe (List.insertionSort entryLe children) :=
    List.sorted_insertionSort entryLe children
  have hs2 := hs.filter (fun p => (f p).isSome)
  rw [List.Sorted, List.pairwise_map]
  exact hs2

theorem filterMap_eq_map_getD {α β : Type} (f : α → Option β) (l : List α) (d : β) :
    l.filterMap f = (l.filter (fun a => (f a).isSome)).map (fun a => (f a).getD d) := by
  induction l with
  | nil => rfl
  | cons a t ih =>
    cases hf : f a <;>
      simp [List.filterMap_cons, List.filter_cons, hf, ih]

/-- Claim C1, counterexample: the claim quantifies over both scripts, but
`build_nav` (`update_nav.py`) performs no hidden-name filtering — scanning a
directory whose only entry is the file `_draft.md` (raw name starting with
`'_'`) emits a leaf node for it, so a corresponding node does appear in that
nav tree. -/
theorem C1_counterexample :
    UpdateNav.build_nav (.dir [("_draft.md", .file "")]) "" = [.leaf " Draft" "_draft.md"] ∧
    UpdateNav.build_nav (.dir [("_draft.md", .file "")]) "" ≠ [] := by
  have h1 : UpdateNav.build_nav (.dir [("_draft.md", .file "")]) "" =
      [.leaf " Draft" "_draft.md"] := by
    rw [build_nav_dir]
    rfl
  exact ⟨h1, by rw [h1]; exact List.cons_ne_nil _ _⟩

/-- Claim C1, amended: in `generate_nav_and_index.py` the scan skips every
entry whose raw name starts with `'.'` or `'_'` at every recursion depth —
deleting all hidden entries from the tree (`stripHidden`) leaves both the nav
and the index output of `scan_docs` unchanged; `update_nav.py`'s `build_nav`
applies no such filter and does emit nodes for hidden entries. -/
theorem C1_amended (e : FSEntry) (base : String) :
    GenerateNav.scan_docs (stripHidden e) base = GenerateNav.scan_docs e base :=
  scan_docs_stripHidden e base

/-- Claim C2, counterexample: the claim quantifies over both scripts, but
`scan_docs` (`generate_nav_and_index.py`) appends a group node
unconditionally — scanning a directory containing only the empty directory
`empty` emits `Group "Empty"` with zero children in both the nav and the
index tree. -/
theorem C2_counterexample :
    GenerateNav.scan_docs (.dir [("empty", .dir [])]) "" =
      ([.group "Empty" []], [.group "Empty" []]) := by
  have hinner : GenerateNav.scan_docs (.dir []) (pathJoin "" "empty") = ([], []) := by
    rw [scan_docs_dir]
    rfl
  have he : GenerateNav.emitNav "" ("empty", .dir []) =
      some (.group (GenerateNav.format_title "empty")
        (GenerateNav.scan_docs (.dir []) (pathJoin "" "empty")).1) := rfl
  have hi : GenerateNav.emitIdx "" ("empty", .dir []) =
      some (.group (GenerateNav.format_title "empty")
        (GenerateNav.scan_docs (.dir []) (pathJoin "" "empty")).2) := rfl
  have hsort : List.insertionSort entryLe [("empty", FSEntry.dir [])] =
      [("empty", FSEntry.dir [])] := rfl
  rw [scan_docs_dir, hsort, List.filterMap_cons, List.filterMap_cons, he, hi, hinner]
  rfl

/-- Claim C2, amended: the empty-subtree elision holds in `update_nav.py`:
no group anywhere in a `build_nav` result has an empty child list (a
directory whose recursive result is empty is omitted); `scan_docs` in
`generate_nav_and_index.py` instead emits empty groups. -/
theorem C2_amended (e : FSEntry) (base : String) :
    navForestNoEmpty (UpdateNav.build_nav e base) = true :=
  build_nav_no_empty e base

/-- Claim C3, counterexample: the claim quantifies over both scripts, but
`build_nav` (`update_nav.py`) has no reserved-index exclusion — scanning a
directory containing the file `index.md` emits a leaf for it. -/
theorem C3_counterexample :
    UpdateNav.build_nav (.dir [("index.md", .file "")]) "" =
      [.leaf "Index" "index.md"] := by
  rw [build_nav_dir]
  rfl

/-- Claim C3, amended: in `generate_nav_and_index.py` a non-hidden file is
included exactly when its name ends in `.md` and its lower-cased name is not
`index.md` (the first conjunct states the complete per-file condition,
hidden-name filter included); in `update_nav.py` a file is included exactly
when its name ends in `.md`, with no index exclusion.  The third conjunct
ties the per-entry condition to the scan itself. -/
theorem C3_amended :
    (∀ base name c : String,
      (GenerateNav.emitNav base (name, .file c)).isSome =
        (!(isHidden name) && (pyEndsWith name ".md" && pyLower name != "index.md"))) ∧
    (∀ base name c : String,
      (UpdateNav.emitUpd base (name, .file c)).isSome = pyEndsWith name ".md") ∧
    (∀ (children : List (String × FSEntry)) (base : String),
      GenerateNav.scan_docs (.dir children) base =
        ((List.insertionSort entryLe children).filterMap (GenerateNav.emitNav base),
         (List.insertionSort entryLe children).filterMap (GenerateNav.emitIdx base))) := by
  refine ⟨?_, ?_, fun children base => scan_docs_dir children base⟩
  · intro base name c
    unfold GenerateNav.emitNav
    by_cases hh : isHidden name = true
    · simp [hh]
    · have hh' := (Bool.not_eq_true _).mp hh
      simp only [hh', Bool.false_eq_true, if_false, Bool.not_false, Bool.true_and]
      by_cases hc : (pyEndsWith name ".md" && pyLower name != "index.md") = true
      · simp [hc]
      · simp [(Bool.not_eq_true _).mp hc]
  · intro base name c
    unfold UpdateNav.emitUpd
    by_cases hc : pyEndsWith name ".md" = true
    · simp [hc]
    · simp [(Bool.not_eq_true _).mp hc]

/-- Claim C5, counterexample: both title functions use Python `str.title()`,
whose word boundaries sit at every non-letter character, not only at
whitespace — `format_title "api2doc"` gives `"Api2Doc"` where the claimed
whitespace-token rule gives `"Api2doc"`; and `title_case` (`update_nav.py`)
does not replace hyphens at all: `title_case "my-file.md"` gives `"My-File"`,
not the claimed `"My File"`. -/
theorem C5_counterexample :
    GenerateNav.format_title "api2doc" = "Api2Doc" ∧
    claimedTitle "api2doc" = "Api2doc" ∧
    GenerateNav.format_title "api2doc" ≠ claimedTitle "api2doc" ∧
    UpdateNav.title_case "my-file.md" = "My-File" ∧
    UpdateNav.title_case "my-file.md" ≠ claimedTitle "my-file" := by
  refine ⟨rfl, rfl, ?_, rfl, ?_⟩ <;> decide

/-- Claim C5, amended: in `generate_nav_and_index.py` the derived title is
the name with every `'_'` and `'-'` replaced by a space and then title-cased
with word boundaries at every non-letter character (a letter that starts the
string or follows a non-letter is upper-cased, any other letter is
lower-cased); in `update_nav.py` the extension is stripped and only `'_'` is
replaced (hyphens are kept) before the same title-casing. -/
theorem C5_amended (name : String) :
    GenerateNav.format_title name = titleSpec (pyReplace '-' ' ' (pyReplace '_' ' ' name)) ∧
    UpdateNav.title_case name = titleSpec (pyReplace '_' ' ' (splitextRoot name)) :=
  ⟨pyTitle_eq_titleSpec _, pyTitle_eq_titleSpec _⟩

/-- Claim C6: both config-merge functions change only the `nav` key — with a
pre-existing `site_name: "X"` and no `nav` key, after a run `site_name` still
maps to `"X"`, every other key is preserved, and a `nav` key now exists
holding the serialized nav tree. -/
theorem C6_config_frame (cfg : Config) (X : String) (nav : List NavItem)
    (children : List (String × FSEntry))
    (h1 : lookupKey cfg "site_name" = some (.scalar X))
    (_h2 : lookupKey cfg "nav" = none) :
    (lookupKey (GenerateNav.update_mkdocs_yml (.mapping cfg) nav) "site_name" =
        some (.scalar X) ∧
      lookupKey (GenerateNav.update_mkdocs_yml (.mapping cfg) nav) "nav" =
        some (.navList nav) ∧
      (∀ k, k ≠ "nav" →
        lookupKey (GenerateNav.update_mkdocs_yml (.mapping cfg) nav) k = lookupKey cfg k)) ∧
    (∃ cfg', UpdateNav.update_mkdocs_yaml (some children) (.mapping cfg) = .ok cfg' ∧
      lookupKey cfg' "site_name" = some (.scalar X) ∧
      (lookupKey cfg' "nav").isSome = true ∧
      (∀ k, k ≠ "nav" → lookupKey cfg' k = lookupKey cfg k)) := by
  have hyml : GenerateNav.update_mkdocs_yml (.mapping cfg) nav =
      setKey cfg "nav" (.navList nav) := rfl
  have hsn : ("site_name" : String) ≠ "nav" := by decide
  constructor
  · rw [hyml]
    exact ⟨by rw [lookupKey_setKey_other cfg "nav" _ _ hsn, h1],
      lookupKey_setKey_self cfg "nav" _,
      fun k hk => lookupKey_setKey_other cfg "nav" _ k hk⟩
  · refine ⟨setKey cfg "nav" (.navList (UpdateNav.build_nav (.dir children) "")), rfl,
      ?_, ?_, ?_⟩
    · rw [lookupKey_setKey_other cfg "nav" _ _ hsn, h1]
    · rw [lookupKey_setKey_self cfg "nav" _]
      rfl
    · exact fun k hk => lookupKey_setKey_other cfg "nav" _ k hk

/-- Witness for C6 at a concrete two-key configuration. -/
theorem C6_config_frame_witness :
    lookupKey (GenerateNav.update_mkdocs_yml
        (.mapping [("site_name", .scalar "X"), ("theme", .scalar "material")]) [])
      "site_name" = some (.scalar "X") ∧
    lookupKey (GenerateNav.update_mkdocs_yml
        (.mapping [("site_name", .scalar "X"), ("theme", .scalar "material")]) [])
      "theme" = some (.scalar "material") := by
  have h := C6_config_frame [("site_name", .scalar "X"), ("theme", .scalar "material")]
    "X" [] [] rfl rfl
  exact ⟨h.1.1, by rw [h.1.2.2 "theme" (by decide)]; rfl⟩

/-- Claim C7, counterexample: `update_nav.py` opens the configuration file
unconditionally, so with the file absent the run fails with
`FileNotFoundError` instead of starting from an empty document. -/
theorem C7_counterexample :
    UpdateNav.update_mkdocs_yaml (some [("a.md", .file "")]) .absent =
      .error UpdateNav.UpdErr.fileNotFoundErr := rfl

/-- Claim C7, amended: in `generate_nav_and_index.py` a missing
configuration file is replaced by an empty document and the run succeeds,
producing a configuration whose only key is `nav`; `update_nav.py` instead
fails with `FileNotFoundError` whenever the configuration file is absent. -/
theorem C7_amended (docsL : List (String × FSEntry))
    (hnodir : docsL.any (fun p => p.1 == "index.md" && p.2.isDir) = false) :
    ((GenerateNav.main ⟨some docsL, .absent, true⟩).2 = none ∧
      ∃ nav, (GenerateNav.main ⟨some docsL, .absent, true⟩).1.mkdocs =
        .mapping [("nav", .navList nav)]) ∧
    (∀ docs : Option (List (String × FSEntry)),
      UpdateNav.update_mkdocs_yaml docs .absent = .error .fileNotFoundErr) := by
  constructor
  · rw [main_eq_of_success docsL .absent hnodir]
    exact ⟨rfl, ⟨(GenerateNav.scan_docs (.dir docsL) "").1, rfl⟩⟩
  · intro docs
    cases docs <;> rfl

/-- Witness for C7 at a concrete one-file docs tree. -/
theorem C7_amended_witness :
    (GenerateNav.main ⟨some [("a.md", FSEntry.file "")], .absent, true⟩).2 = none :=
  (C7_amended [("a.md", FSEntry.file "")] (by decide)).1.1

/-- Claim C8: at every directory level both scanners process the entries in
ascending lexicographic raw-name order — each scan equals a `filterMap` over
the sorted listing, the emitted entries are the kept entries of that sorted
listing in order (their raw names are sorted), and the index renderer
concatenates per-item renderings in list order with no re-sorting. -/
theorem C8_order_preservation :
    (∀ (children : List (String × FSEntry)) (base : String),
      GenerateNav.scan_docs (.dir children) base =
        ((List.insertionSort entryLe children).filterMap (GenerateNav.emitNav base),
         (List.insertionSort entryLe children).filterMap (GenerateNav.emitIdx base)) ∧
      UpdateNav.build_nav (.dir children) base =
        (List.insertionSort entryLe children).filterMap (UpdateNav.emitUpd base) ∧
      (List.insertionSort entryLe children).filterMap (GenerateNav.emitNav base) =
        (((List.insertionSort entryLe children).filter
            (fun p => (GenerateNav.emitNav base p).isSome)).map
          (fun p => (GenerateNav.emitNav base p).getD (.leaf "" ""))) ∧
      List.Sorted (fun a b : String => a ≤ b)
        (((List.insertionSort entryLe children).filter
          (fun p => (GenerateNav.emitNav base p).isSome)).map Prod.fst) ∧
      List.Sorted (fun a b : String => a ≤ b)
        (((List.insertionSort entryLe children).filter
          (fun p => (UpdateNav.emitUpd base p).isSome)).map Prod.fst)) ∧
    (∀ (items : List NavItem) (lvl : Nat),
      GenerateNav.render_links items lvl =
        items.flatMap (fun it => GenerateNav.render_links [it] lvl)) :=
  ⟨fun children base =>
    ⟨scan_docs_dir children base, build_nav_dir children base,
      filterMap_eq_map_getD _ _ _,
      emitted_names_sorted _ children, emitted_names_sorted _ children⟩,
   render_links_eq_flatMap⟩

/-- Claim C10: when the configuration file exists but parses to YAML `null`
(an empty document), `update_mkdocs_yml` treats it as an empty mapping
(`yaml.safe_load(f) or {}`): the run succeeds and the rewritten configuration
contains the `nav` key. -/
theorem C10_null_config (docsL : List (String × FSEntry))
    (hnodir : docsL.any (fun p => p.1 == "index.md" && p.2.isDir) = false) :
    (∀ nav, GenerateNav.update_mkdocs_yml .nullDoc nav = [("nav", .navList nav)]) ∧
    (GenerateNav.main ⟨some docsL, .nullDoc, true⟩).2 = none ∧
    ∃ nav, (GenerateNav.main ⟨some docsL, .nullDoc, true⟩).1.mkdocs =
      .mapping [("nav", .navList nav)] := by
  refine ⟨fun nav => rfl, ?_, ?_⟩
  · rw [main_eq_of_success docsL .nullDoc hnodir]
  · rw [main_eq_of_success docsL .nullDoc hnodir]
    exact ⟨(GenerateNav.scan_docs (.dir docsL) "").1, rfl⟩

/-- Witness for C10 at a concrete one-file docs tree. -/
theorem C10_null_config_witness :
    (GenerateNav.main ⟨some [("a.md", FSEntry.file "")], .nullDoc, true⟩).2 = none :=
  (C10_null_config [("a.md", FSEntry.file "")] (by decide)).2.1

/-- Claim C9: `main` runs scan, then config write, then index write, and
aborts at the first failure — on a scan error (missing `docs` directory) the
world is unchanged (neither output written), and on a config-write failure
the world is also unchanged, so in particular the index file has not been
written; the last two conjuncts pin the stage each failure comes from. -/
theorem C9_orchestrator_atomicity (w : GenerateNav.World) :
    ((GenerateNav.main w).2 = some GenerateNav.RunErr.scanErr →
      (GenerateNav.main w).1 = w) ∧
    ((GenerateNav.main w).2 = some GenerateNav.RunErr.configWriteErr →
      (GenerateNav.main w).1 = w) ∧
    (w.docs = none → GenerateNav.main w = (w, some GenerateNav.RunErr.scanErr)) ∧
    (∀ children, w.docs = some children → w.mkdocsWritable = false →
      GenerateNav.main w = (w, some GenerateNav.RunErr.configWriteErr)) := by
  obtain ⟨d, mk, wr⟩ := w
  cases d with
  | none =>
    refine ⟨fun _ => rfl, fun h => ?_, fun _ => rfl,
      fun children h => Option.noConfusion h⟩
    have hm : (GenerateNav.main ⟨none, mk, wr⟩).2 = some GenerateNav.RunErr.scanErr := rfl
    rw [hm] at h
    exact GenerateNav.RunErr.noConfusion (Option.some.inj h)
  | some children =>
    cases wr with
    | false =>
      refine ⟨fun h => ?_, fun _ => rfl, fun h => Option.noConfusion h,
        fun _ _ _ => rfl⟩
      have hm : (GenerateNav.main ⟨some children, mk, false⟩).2 =
          some GenerateNav.RunErr.configWriteErr := rfl
      rw [hm] at h
      exact GenerateNav.RunErr.noConfusion (Option.some.inj h)
    | true =>
      cases hin : children.any (fun p => p.1 == "index.md" && p.2.isDir) with
      | true =>
        have hm : (GenerateNav.main ⟨some children, mk, true⟩).2 =
            some GenerateNav.RunErr.indexWriteErr := by
          unfold GenerateNav.main
          simp only [if_true, hin]
        refine ⟨fun h => ?_, fun h => ?_, fun h => Option.noConfusion h,
          fun ch h hw => Bool.noConfusion hw⟩
        · rw [hm] at h
          exact GenerateNav.RunErr.noConfusion (Option.some.inj h)
        · rw [hm] at h
          exact GenerateNav.RunErr.noConfusion (Option.some.inj h)
      | false =>
        have hm : (GenerateNav.main ⟨some children, mk, true⟩).2 = none := by
          rw [main_eq_of_success children mk hin]
        refine ⟨fun h => ?_, fun h => ?_, fun h => Option.noConfusion h,
          fun ch h hw => Bool.noConfusion hw⟩
        · rw [hm] at h
          exact Option.noConfusion h
        · rw [hm] at h
          exact Option.noConfusion h

/-- Witness for C9: a world with a missing docs directory is returned
unchanged with a scan error, and a world with an unwritable configuration is
returned unchanged with a config-write error. -/
theorem C9_orchestrator_atomicity_witness :
    GenerateNav.main ⟨none, .absent, true⟩ =
      (⟨none, .absent, true⟩, some GenerateNav.RunErr.scanErr) ∧
    GenerateNav.main ⟨some [("a.md", FSEntry.file "")], .absent, false⟩ =
      (⟨some [("a.md", FSEntry.file "")], .absent, false⟩,
       some GenerateNav.RunErr.configWriteErr) := by
  have h1 := C9_orchestrator_atomicity ⟨none, .absent, true⟩
  have h2 := C9_orchestrator_atomicity ⟨some [("a.md", FSEntry.file "")], .absent, false⟩
  exact ⟨h1.2.2.1 rfl, h2.2.2.2 [("a.md", FSEntry.file "")] rfl rfl⟩

/-- Claim C4: running `generate_nav_and_index.py` twice, the second run
taking the first run's world (its rewritten `mkdocs.yml` and its written
`docs/index.md`) as input, succeeds and produces a byte-identical serialized
configuration and a byte-identical index document; and re-running
`update_nav.py` on its own output configuration returns that configuration
unchanged.  The hypothesis rules out a directory named `index.md` at the docs
root, which would make the first index write itself fail. -/
theorem C4_idempotence (w : GenerateNav.World) (children : List (String × FSEntry))
    (hd : w.docs = some children) (hw : w.mkdocsWritable = true)
    (hidx : ∀ p ∈ children, p.1 = "index.md" → p.2.isFile = true) :
    (GenerateNav.main w).2 = none ∧
    (GenerateNav.main (GenerateNav.main w).1).2 = none ∧
    GenerateNav.World.mkdocsBytes ((GenerateNav.main (GenerateNav.main w).1).1) =
      GenerateNav.World.mkdocsBytes ((GenerateNav.main w).1) ∧
    GenerateNav.World.indexFileContent ((GenerateNav.main (GenerateNav.main w).1).1) =
      GenerateNav.World.indexFileContent ((GenerateNav.main w).1) ∧
    (GenerateNav.World.indexFileContent ((GenerateNav.main w).1)).isSome = true ∧
    (∀ (children' : List (String × FSEntry)) (cfg : Config),
      UpdateNav.update_mkdocs_yaml (some children')
          (.mapping (setKey cfg "nav" (.navList (UpdateNav.build_nav (.dir children') "")))) =
        .ok (setKey cfg "nav" (.navList (UpdateNav.build_nav (.dir children') "")))) := by
  obtain ⟨d, mk, wr⟩ := w
  have hd' : d = some children := hd
  have hw' : wr = true := hw
  subst hd'
  subst hw'
  have hnodir := no_index_dir_of_files children hidx
  have hmain1 := main_eq_of_success children mk hnodir
  have hidx1 := setEntry_index_keeps_files children
    (GenerateNav.generate_index_md (GenerateNav.scan_docs (.dir children) "").2) hidx
  have hnodir1 := no_index_dir_of_files _ hidx1
  have hscan1 := scan_setEntry_index children ""
    (GenerateNav.generate_index_md (GenerateNav.scan_docs (.dir children) "").2) hidx
  have hmain2 := main_eq_of_success
    (setEntry children "index.md"
      (.file (GenerateNav.generate_index_md (GenerateNav.scan_docs (.dir children) "").2)))
    (.mapping (GenerateNav.update_mkdocs_yml mk (GenerateNav.scan_docs (.dir children) "").1))
    hnodir1
  rw [hscan1] at hmain2
  have hyml2 : GenerateNav.update_mkdocs_yml
      (.mapping (GenerateNav.update_mkdocs_yml mk (GenerateNav.scan_docs (.dir children) "").1))
      (GenerateNav.scan_docs (.dir children) "").1 =
      GenerateNav.update_mkdocs_yml mk (GenerateNav.scan_docs (.dir children) "").1 := by
    cases mk with
    | absent => exact setKey_setKey _ "nav" _
    | nullDoc => exact setKey_setKey _ "nav" _
    | mapping m => exact setKey_setKey _ "nav" _
  rw [hyml2] at hmain2
  have hfind : ∀ (l : List (String × FSEntry)) (c : String),
      (setEntry l "index.md" (.file c)).find? (fun p => p.1 == "index.md") =
        some ("index.md", .file c) := by
    intro l c
    rw [setEntry_eq_upsert]
    exact find?_upsert_self l "index.md" (.file c)
  refine ⟨by rw [hmain1], ?_, ?_, ?_, ?_, ?_⟩
  · simp only [hmain1]
    rw [hmain2]
  · simp only [hmain1]
    rw [hmain2]
    rfl
  · simp only [hmain1]
    rw [hmain2]
    simp only [GenerateNav.World.indexFileContent]
    rw [hfind, hfind]
  · simp only [hmain1]
    simp only [GenerateNav.World.indexFileContent]
    rw [hfind]
    rfl
  · intro children' cfg
    exact congrArg Except.ok (setKey_setKey cfg "nav" _)

/-- Witness for C4 at a concrete docs tree with a subdirectory, a hidden
entry and no pre-existing index file. -/
theorem C4_idempotence_witness :
    (GenerateNav.main ⟨some [("_draft.md", FSEntry.file ""),
        ("guide", FSEntry.dir [("intro.md", FSEntry.file "")])], .absent, true⟩).2 = none ∧
    (GenerateNav.main (GenerateNav.main ⟨some [("_draft.md", FSEntry.file ""),
        ("guide", FSEntry.dir [("intro.md", FSEntry.file "")])], .absent, true⟩).1).2 = none := by
  have h := C4_idempotence
    ⟨some [("_draft.md", FSEntry.file ""),
      ("guide", FSEntry.dir [("intro.md", FSEntry.file "")])], .absent, true⟩
    [("_draft.md", FSEntry.file ""), ("guide", FSEntry.dir [("intro.md", FSEntry.file "")])]
    rfl rfl (by decide)
  exact ⟨h.1, h.2.1⟩
